import Mathlib

/-!
# Verification of the `LibPinyinBackEnd` glue layer (src/src/PYLibPinyin.cc)

Shallow embedding of the backend: the mutable object state becomes an explicit
record, and every call the backend makes into its opaque collaborators (the
libpinyin engine, GLib timers, the filesystem) is recorded in an event trace.
Time is modelled as a natural number of seconds; the GTimer is represented by
the timestamp of its last (re)start, so the elapsed time at instant `now` is
`now - m_timer`.
-/

set_option autoImplicit false

namespace PY

/-- The two scheme families served by the backend. -/
inductive Family where
  | pinyin
  | chewing
deriving DecidableEq, Repr

/-- Double-pinyin schemes named in the fixed mapping table (external enum from
pinyin.h; only the constructors used by the table are modelled). -/
inductive DoublePinyinScheme where
  | DOUBLE_PINYIN_MS
  | DOUBLE_PINYIN_ZRM
  | DOUBLE_PINYIN_ABC
  | DOUBLE_PINYIN_ZIGUANG
  | DOUBLE_PINYIN_PYJJ
  | DOUBLE_PINYIN_XHE
deriving DecidableEq, Repr

/-- Chewing keyboard schemes named in the fixed mapping table (external enum
from pinyin.h). -/
inductive ChewingScheme where
  | CHEWING_STANDARD
  | CHEWING_GINYIEH
  | CHEWING_ETEN
  | CHEWING_IBM
deriving DecidableEq, Repr

/-- `LIBPINYIN_SAVE_TIMEOUT` from PYLibPinyin.cc: (5 * 60) seconds. -/
def LIBPINYIN_SAVE_TIMEOUT : Nat := 5 * 60

/-- The fixed read-only system data path passed to `pinyin_init`. -/
def SYSTEM_DATA_DIR : String := "/usr/share/libpinyin/data"

/-- `USE_RESPLIT_TABLE` bit flag from the external pinyin.h header.  The exact
bit position is irrelevant to every theorem below; only the fact that the flag
is OR-ed into the pushed options matters. -/
def USE_RESPLIT_TABLE : Nat := 1 <<< 7

/-- Observable state of one opaque engine context (`pinyin_context_t`).  The
engine is an opaque collaborator; we track exactly the facts the backend's
calls determine: what `pinyin_init` received, and the last scheme/options
pushed (`none` scheme = engine default, never overwritten by this backend). -/
structure Context where
  sysdir : String
  userdir : Option String
  doubleScheme : Option DoublePinyinScheme
  chewingScheme : Option ChewingScheme
  options : Option Nat
deriving DecidableEq, Repr

/-- `pinyin_init (sysdir, userdir)`: fresh context with engine-default scheme
and options. -/
def pinyin_init (sysdir : String) (userdir : Option String) : Context :=
  { sysdir := sysdir, userdir := userdir,
    doubleScheme := none, chewingScheme := none, options := none }

/-- One observable call the backend makes into its collaborators. -/
inductive Event where
  /-- `g_mkdir_with_parents (path, mode)` -/
  | mkdirWithParents (path : String) (mode : Nat)
  /-- `pinyin_init` for the given family's context slot -/
  | engineInit (fam : Family) (sysdir : String) (userdir : Option String)
  /-- `pinyin_alloc_instance` on the given family's context -/
  | engineAllocInstance (fam : Family)
  /-- `pinyin_free_instance` -/
  | engineFreeInstance (fam : Family)
  /-- `pinyin_set_double_pinyin_scheme` -/
  | engineSetDoubleScheme (s : DoublePinyinScheme)
  /-- `pinyin_set_chewing_scheme` -/
  | engineSetChewingScheme (s : ChewingScheme)
  /-- `pinyin_set_options` on the given family's context -/
  | engineSetOptions (fam : Family) (opts : Nat)
  /-- `pinyin_save` on the given family's context -/
  | engineSave (fam : Family)
  /-- `pinyin_fini` on the given family's context -/
  | engineFini (fam : Family)
  /-- marker: the backend method `saveUserDB` was invoked -/
  | saveUserDBCall
  /-- `g_timeout_add_seconds (interval, callback, data)` returning `id` -/
  | timeoutAdd (interval : Nat) (id : Nat)
  /-- `g_source_remove (id)` -/
  | sourceRemove (id : Nat)
deriving DecidableEq, Repr

/-- Modelled from the spec: the `Config` collaborator (PYPConfig.h is not in
the sources) is a read-only supplier of a keyboard-scheme selector integer per
family and a behavior-flags bitmask, re-read on every allocation. -/
structure Config where
  doublePinyinSchema : Int
  bopomofoKeyboardMapping : Int
  option : Nat
deriving DecidableEq, Repr

/-- Environment for the filesystem calls: the home directory returned by
`g_get_home_dir` and the success of `g_mkdir_with_parents` per path
(`true` = retval 0 = success). -/
structure Env where
  home : String
  mkdirOk : String → Bool

/-- The fixed ordered double pinyin keyboard scheme mapping table
(`double_pinyin_options` in PYLibPinyin.cc). -/
def double_pinyin_options : List (Int × DoublePinyinScheme) :=
  [(0, DoublePinyinScheme.DOUBLE_PINYIN_MS),
   (1, DoublePinyinScheme.DOUBLE_PINYIN_ZRM),
   (2, DoublePinyinScheme.DOUBLE_PINYIN_ABC),
   (3, DoublePinyinScheme.DOUBLE_PINYIN_ZIGUANG),
   (4, DoublePinyinScheme.DOUBLE_PINYIN_PYJJ),
   (5, DoublePinyinScheme.DOUBLE_PINYIN_XHE)]

/-- The fixed ordered chewing keyboard scheme mapping table
(`chewing_options` in PYLibPinyin.cc). -/
def chewing_options : List (Int × ChewingScheme) :=
  [(0, ChewingScheme.CHEWING_STANDARD),
   (1, ChewingScheme.CHEWING_GINYIEH),
   (2, ChewingScheme.CHEWING_ETEN),
   (3, ChewingScheme.CHEWING_IBM)]

/-- `g_build_filename (home, ".cache", "ibus", "libpinyin", NULL)`. -/
def pinyinUserDir (home : String) : String :=
  home ++ "/.cache/ibus/libpinyin"

/-- `g_build_filename (home, ".cache", "ibus", "libbopomofo", NULL)`. -/
def chewingUserDir (home : String) : String :=
  home ++ "/.cache/ibus/libbopomofo"

/-- State of one `LibPinyinBackEnd` object.  `m_timer` holds the timestamp of
the last `g_timer_start`/`g_timer_new`, so elapsed time at `now` is
`now - m_timer`. -/
structure LibPinyinBackEnd where
  m_timeout_id : Nat
  m_timer : Nat
  m_pinyin_context : Option Context
  m_chewing_context : Option Context
deriving DecidableEq, Repr

namespace LibPinyinBackEnd

/-- The constructor `LibPinyinBackEnd::LibPinyinBackEnd` at construction
instant `now` (`g_timer_new` starts the timer). -/
def construct (now : Nat) : LibPinyinBackEnd :=
  { m_timeout_id := 0, m_timer := now,
    m_pinyin_context := none, m_chewing_context := none }

/-- `LibPinyinBackEnd::saveUserDB`: `pinyin_save` on whichever contexts exist;
always returns TRUE.  The trace starts with the invocation marker. -/
def saveUserDB (s : LibPinyinBackEnd) : Bool × List Event :=
  let t1 : List Event :=
    match s.m_pinyin_context with
    | some _ => [Event.engineSave Family.pinyin]
    | none => []
  let t2 : List Event :=
    match s.m_chewing_context with
    | some _ => [Event.engineSave Family.chewing]
    | none => []
  (true, Event.saveUserDBCall :: (t1 ++ t2))

/-- `LibPinyinBackEnd::modified` at instant `now`; `newId` is the (positive)
source id `g_timeout_add_seconds` would return if a timeout is added. -/
def modified (now : Nat) (newId : Nat) (s : LibPinyinBackEnd) :
    LibPinyinBackEnd × List Event :=
  let s := { s with m_timer := now }
  if s.m_timeout_id ≠ 0 then
    (s, [])
  else
    ({ s with m_timeout_id := newId },
     [Event.timeoutAdd LIBPINYIN_SAVE_TIMEOUT newId])

/-- `LibPinyinBackEnd::timeoutCallback` at instant `now`.  Returns
(continue?, state, trace): `true` = G_SOURCE_CONTINUE, `false` = remove the
source.  `saveUserDB` is invoked only when the elapsed time has reached
`LIBPINYIN_SAVE_TIMEOUT` (short-circuit `&&` in the source). -/
def timeoutCallback (now : Nat) (s : LibPinyinBackEnd) :
    Bool × LibPinyinBackEnd × List Event :=
  let elapsed := now - s.m_timer
  if LIBPINYIN_SAVE_TIMEOUT ≤ elapsed then
    let r := saveUserDB s
    if r.1 then
      (false, { s with m_timeout_id := 0 }, r.2)
    else
      (true, s, r.2)
  else
    (true, s, [])

/-- Body of the for-loop in `setPinyinOptions`: one table entry is compared
against the selector and, on a match, `pinyin_set_double_pinyin_scheme` is
called. -/
def pinyinSchemeStep (map : Int) (acc : Context × List Event)
    (p : Int × DoublePinyinScheme) : Context × List Event :=
  if map = p.1 then
    ({ acc.1 with doubleScheme := some p.2 },
     acc.2 ++ [Event.engineSetDoubleScheme p.2])
  else acc

/-- Body of the for-loop in `setChewingOptions`. -/
def chewingSchemeStep (map : Int) (acc : Context × List Event)
    (p : Int × ChewingScheme) : Context × List Event :=
  if map = p.1 then
    ({ acc.1 with chewingScheme := some p.2 },
     acc.2 ++ [Event.engineSetChewingScheme p.2])
  else acc

/-- `LibPinyinBackEnd::setPinyinOptions`.  Returns (result, state, trace);
the state carries the updated observable context. -/
def setPinyinOptions (config : Config) (s : LibPinyinBackEnd) :
    Bool × LibPinyinBackEnd × List Event :=
  match s.m_pinyin_context with
  | none => (false, s, [])
  | some ctx =>
    let map := config.doublePinyinSchema
    let folded := double_pinyin_options.foldl (pinyinSchemeStep map) (ctx, [])
    let options := config.option ||| USE_RESPLIT_TABLE
    let ctx2 := { folded.1 with options := some options }
    (true, { s with m_pinyin_context := some ctx2 },
     folded.2 ++ [Event.engineSetOptions Family.pinyin options])

/-- `LibPinyinBackEnd::setChewingOptions`. -/
def setChewingOptions (config : Config) (s : LibPinyinBackEnd) :
    Bool × LibPinyinBackEnd × List Event :=
  match s.m_chewing_context with
  | none => (false, s, [])
  | some ctx =>
    let map := config.bopomofoKeyboardMapping
    let folded := chewing_options.foldl (chewingSchemeStep map) (ctx, [])
    let options := config.option
    let ctx2 := { folded.1 with options := some options }
    (true, { s with m_chewing_context := some ctx2 },
     folded.2 ++ [Event.engineSetOptions Family.chewing options])

/-- `LibPinyinBackEnd::allocPinyinInstance`. -/
def allocPinyinInstance (env : Env) (config : Config)
    (s : LibPinyinBackEnd) : LibPinyinBackEnd × List Event :=
  let created :=
    match s.m_pinyin_context with
    | some _ => (s, ([] : List Event))
    | none =>
      let userdir := pinyinUserDir env.home
      let userdirOpt := if env.mkdirOk userdir then some userdir else none
      let ctx := pinyin_init SYSTEM_DATA_DIR userdirOpt
      ({ s with m_pinyin_context := some ctx },
       [Event.mkdirWithParents userdir 448,
        Event.engineInit Family.pinyin SYSTEM_DATA_DIR userdirOpt])
  let applied := setPinyinOptions config created.1
  (applied.2.1,
   created.2 ++ applied.2.2 ++ [Event.engineAllocInstance Family.pinyin])

/-- `LibPinyinBackEnd::allocChewingInstance`.  Note the source builds and
mkdirs the libbopomofo user directory but passes NULL to `pinyin_init`
(PYLibPinyin.cc line 90). -/
def allocChewingInstance (env : Env) (config : Config)
    (s : LibPinyinBackEnd) : LibPinyinBackEnd × List Event :=
  let created :=
    match s.m_chewing_context with
    | some _ => (s, ([] : List Event))
    | none =>
      let userdir := chewingUserDir env.home
      let ctx := pinyin_init SYSTEM_DATA_DIR none
      ({ s with m_chewing_context := some ctx },
       [Event.mkdirWithParents userdir 448,
        Event.engineInit Family.chewing SYSTEM_DATA_DIR none])
  let applied := setChewingOptions config created.1
  (applied.2.1,
   created.2 ++ applied.2.2 ++ [Event.engineAllocInstance Family.chewing])

/-- `LibPinyinBackEnd::freePinyinInstance`. -/
def freePinyinInstance (s : LibPinyinBackEnd) :
    LibPinyinBackEnd × List Event :=
  (s, [Event.engineFreeInstance Family.pinyin])

/-- `LibPinyinBackEnd::freeChewingInstance`. -/
def freeChewingInstance (s : LibPinyinBackEnd) :
    LibPinyinBackEnd × List Event :=
  (s, [Event.engineFreeInstance Family.chewing])

/-- The destructor `LibPinyinBackEnd::~LibPinyinBackEnd`: forced save and
timer cancellation when a timeout is pending, then `pinyin_fini` on each
present context. -/
def destructor (s : LibPinyinBackEnd) : List Event :=
  let t1 : List Event :=
    if s.m_timeout_id ≠ 0 then
      (saveUserDB s).2 ++ [Event.sourceRemove s.m_timeout_id]
    else []
  let t2 : List Event :=
    match s.m_pinyin_context with
    | some _ => [Event.engineFini Family.pinyin]
    | none => []
  let t3 : List Event :=
    match s.m_chewing_context with
    | some _ => [Event.engineFini Family.chewing]
    | none => []
  t1 ++ t2 ++ t3

end LibPinyinBackEnd

/-!
## Process-level singleton model

`std::unique_ptr<LibPinyinBackEnd> LibPinyinBackEnd::m_instance` (line 30) is
the singleton registration slot; `static LibPinyinBackEnd libpinyin_backend`
(line 32) is a file-static backend object constructed at process startup and
alive for the whole process lifetime.
-/

/-- Process-level state: the singleton slot `m_instance` and the file-static
object `libpinyin_backend`. -/
structure ProcessState where
  m_instance : Option LibPinyinBackEnd
  static_backend : Option LibPinyinBackEnd
deriving DecidableEq, Repr

/-- Process startup at instant `now`: static initialization constructs
`libpinyin_backend`; the singleton slot is empty. -/
def startup (now : Nat) : ProcessState :=
  { m_instance := none, static_backend := some (LibPinyinBackEnd.construct now) }

/-- `LibPinyinBackEnd::init`: `g_assert (NULL == m_instance.get ())`, then
`new LibPinyinBackEnd` registered in the slot.  `none` models the fatal
assertion failure (process abort). -/
def backendInit (now : Nat) (p : ProcessState) : Option ProcessState :=
  match p.m_instance with
  | some _ => none
  | none => some { p with m_instance := some (LibPinyinBackEnd.construct now) }

/-- `LibPinyinBackEnd::finalize`: `m_instance.reset ()`.  Runs the destructor
of the registered backend when one is present; a no-op on an empty slot. -/
def backendFinalize (p : ProcessState) : ProcessState × List Event :=
  match p.m_instance with
  | none => ({ p with m_instance := none }, [])
  | some b => ({ p with m_instance := none }, b.destructor)

/-- Number of live `LibPinyinBackEnd` objects in a process state. -/
def liveBackEnds (p : ProcessState) : Nat :=
  (if p.m_instance.isSome then 1 else 0) +
    (if p.static_backend.isSome then 1 else 0)

/-- Number of live backends after an optional process state (`none` = the
process aborted on a failed assertion). -/
def liveBackEndsOpt : Option ProcessState → Nat
  | none => 0
  | some p => liveBackEnds p

/-- Process-level operations. -/
inductive POp where
  | init (now : Nat)
  | finalize
deriving Repr

/-- Run process operations from a state; a failed `init` assertion aborts the
run (`none`). -/
def pexec : Option ProcessState → List POp → Option ProcessState
  | p, [] => p
  | none, _ :: _ => none
  | some p, POp.init now :: ops => pexec (backendInit now p) ops
  | some p, POp.finalize :: ops => pexec (some (backendFinalize p).1) ops

/-!
## Backend operation sequences
-/

/-- One call into a live backend object. -/
inductive Op where
  | allocPinyin (env : Env) (config : Config)
  | allocChewing (env : Env) (config : Config)
  | freePinyin
  | freeChewing
  | setPinyinOpts (config : Config)
  | setChewingOpts (config : Config)
  | modifiedOp (now : Nat) (newId : Nat)
  | timeoutCb (now : Nat)
  | saveOp

/-- Dispatch one operation, returning the new state and its trace. -/
def runOp (s : LibPinyinBackEnd) : Op → LibPinyinBackEnd × List Event
  | Op.allocPinyin env config => s.allocPinyinInstance env config
  | Op.allocChewing env config => s.allocChewingInstance env config
  | Op.freePinyin => s.freePinyinInstance
  | Op.freeChewing => s.freeChewingInstance
  | Op.setPinyinOpts config =>
      let r := s.setPinyinOptions config
      (r.2.1, r.2.2)
  | Op.setChewingOpts config =>
      let r := s.setChewingOptions config
      (r.2.1, r.2.2)
  | Op.modifiedOp now newId => s.modified now newId
  | Op.timeoutCb now =>
      let r := s.timeoutCallback now
      (r.2.1, r.2.2)
  | Op.saveOp => (s, (s.saveUserDB).2)

/-- Run a sequence of operations, concatenating the traces. -/
def exec (s : LibPinyinBackEnd) : List Op → LibPinyinBackEnd × List Event
  | [] => (s, [])
  | op :: ops =>
      let r := runOp s op
      let rest := exec r.1 ops
      (rest.1, r.2 ++ rest.2)

/-- The context slot of a family. -/
def contextOf (f : Family) (s : LibPinyinBackEnd) : Option Context :=
  match f with
  | Family.pinyin => s.m_pinyin_context
  | Family.chewing => s.m_chewing_context

/-- Is this operation an instance allocation for family `f`? -/
def allocFor (f : Family) : Op → Bool
  | Op.allocPinyin _ _ => f = Family.pinyin
  | Op.allocChewing _ _ => f = Family.chewing
  | _ => false

/-- Is this event a context creation (`pinyin_init`) for family `f`? -/
def isInitFor (f : Family) : Event → Bool
  | Event.engineInit f2 _ _ => f2 = f
  | _ => false

/-- Number of `pinyin_init` calls for family `f` recorded in a trace. -/
def countInits (f : Family) (tr : List Event) : Nat :=
  (tr.filter (isInitFor f)).length

/-- Number of `saveUserDB` invocations recorded in a trace. -/
def countSaveCalls (tr : List Event) : Nat :=
  (tr.filter (fun e => e = Event.saveUserDBCall)).length

/-- All `modifiedOp` operations in the list carry a non-zero source id
(`g_timeout_add_seconds` never returns 0). -/
def validIds : List Op → Prop
  | [] => True
  | Op.modifiedOp _ newId :: ops => newId ≠ 0 ∧ validIds ops
  | _ :: ops => validIds ops

/-- A sequence of `modified` calls, each a pair (instant, fresh source id). -/
def applyModifieds (s : LibPinyinBackEnd) :
    List (Nat × Nat) → LibPinyinBackEnd × List Event
  | [] => (s, [])
  | (t, newId) :: ts =>
      let r := s.modified t newId
      let rest := applyModifieds r.1 ts
      (rest.1, r.2 ++ rest.2)

/-- The event loop dispatching the periodic timeout callback at the given
instants, stopping (source removed) as soon as the callback returns FALSE. -/
def runCallbacks (s : LibPinyinBackEnd) : List Nat → LibPinyinBackEnd × List Event
  | [] => (s, [])
  | c :: cs =>
      let r := s.timeoutCallback c
      if r.1 then
        let rest := runCallbacks r.2.1 cs
        (rest.1, r.2.2 ++ rest.2)
      else
        (r.2.1, r.2.2)

/-- Ghost tracker for the spec sentence "a save has been scheduled and has not
yet completed": `modified` always leaves a save scheduled; the scheduled save
completes exactly when the timer callback invokes `saveUserDB`. -/
def ghostStep (s : LibPinyinBackEnd) (g : Bool) : Op → Bool
  | Op.modifiedOp _ _ => true
  | Op.timeoutCb now =>
      if Event.saveUserDBCall ∈ (runOp s (Op.timeoutCb now)).2 then false else g
  | _ => g

/-- Run operations while updating the ghost "save scheduled and not yet
completed" flag. -/
def execG (s : LibPinyinBackEnd) (g : Bool) : List Op → LibPinyinBackEnd × Bool
  | [] => (s, g)
  | op :: ops => execG (runOp s op).1 (ghostStep s g op) ops

/-- Is this event a `pinyin_fini` call? -/
def isFiniEvent : Event → Bool
  | Event.engineFini _ => true
  | _ => false

/-- Sample environment: home `/home/user`, every mkdir succeeding. -/
def env0 : Env := { home := "/home/user", mkdirOk := fun _ => true }

/-- Sample configuration. -/
def cfg0 : Config :=
  { doublePinyinSchema := 0, bopomofoKeyboardMapping := 0, option := 0 }

/-- The double-pinyin scheme visible on the Pinyin context before an
allocation: the scheme already pushed if a context exists, the engine default
(`none`) if the context is yet to be created. -/
def priorPinyinScheme (s : LibPinyinBackEnd) : Option DoublePinyinScheme :=
  match s.m_pinyin_context with
  | some c => c.doubleScheme
  | none => none

end PY

open PY

/-- C8: `saveUserDB` invokes the engine's `pinyin_save` exactly for those
families whose context currently exists, and always returns TRUE regardless
of which contexts exist. -/
theorem C8_saveUserDB_saves_existing_and_returns_true :
    ∀ s : LibPinyinBackEnd,
      (s.saveUserDB).1 = true ∧
      (∀ f : Family,
        Event.engineSave f ∈ (s.saveUserDB).2 ↔ (contextOf f s).isSome) := by
  rintro ⟨tid, tim, pc, cc⟩
  refine ⟨rfl, ?_⟩
  intro f
  cases f <;> cases pc <;> cases cc <;>
    simp [LibPinyinBackEnd.saveUserDB, contextOf]

/-- C9: the option setters guard against a null context: with a null context
they return FALSE, leave the state unchanged and make no engine call; with a
non-null context they return TRUE. -/
theorem C9_option_setters_null_guard :
    ∀ (s : LibPinyinBackEnd) (config : Config),
      (s.m_pinyin_context = none →
        s.setPinyinOptions config = (false, s, [])) ∧
      (s.m_pinyin_context ≠ none → (s.setPinyinOptions config).1 = true) ∧
      (s.m_chewing_context = none →
        s.setChewingOptions config = (false, s, [])) ∧
      (s.m_chewing_context ≠ none → (s.setChewingOptions config).1 = true) := by
  rintro ⟨tid, tim, pc, cc⟩ config
  refine ⟨?_, ?_, ?_, ?_⟩ <;> cases pc <;> cases cc <;>
    simp [LibPinyinBackEnd.setPinyinOptions, LibPinyinBackEnd.setChewingOptions]

/-- C9 witness at concrete states. -/
theorem C9_option_setters_null_guard_witness :
    (LibPinyinBackEnd.construct 0).setPinyinOptions cfg0 =
      (false, LibPinyinBackEnd.construct 0, []) ∧
    ({ LibPinyinBackEnd.construct 0 with
        m_pinyin_context := some (pinyin_init SYSTEM_DATA_DIR none)
      }.setPinyinOptions cfg0).1 = true :=
  ⟨(C9_option_setters_null_guard (LibPinyinBackEnd.construct 0) cfg0).1 rfl,
   ((C9_option_setters_null_guard
      { LibPinyinBackEnd.construct 0 with
          m_pinyin_context := some (pinyin_init SYSTEM_DATA_DIR none) }
      cfg0).2.1 (by simp))⟩

/-- C10: `finalize` with no registered instance is a safe no-op that leaves
the empty registration unchanged; every `finalize` leaves the slot empty, and
a subsequent `init` finds its no-instance precondition satisfied. -/
theorem C10_finalize_without_instance_safe :
    ∀ p : ProcessState,
      (p.m_instance = none → backendFinalize p = (p, [])) ∧
      ((backendFinalize p).1.m_instance = none) ∧
      (∀ now : Nat, (backendInit now (backendFinalize p).1).isSome) := by
  rintro ⟨inst, stat⟩
  refine ⟨?_, ?_, ?_⟩ <;> cases inst <;>
    simp [backendFinalize, backendInit]

/-- C10 witness at a concrete process state. -/
theorem C10_finalize_without_instance_safe_witness :
    backendFinalize (startup 3) = (startup 3, []) :=
  (C10_finalize_without_instance_safe (startup 3)).1 rfl

/-- C3 counterexample: after process startup (which constructs the
file-static `libpinyin_backend`, PYLibPinyin.cc line 32) and one successful
`init ()`, two `LibPinyinBackEnd` objects are live, refuting "at most one
instance exists process-wide". -/
theorem C3_counterexample_two_live_instances :
    liveBackEndsOpt (backendInit 0 (startup 0)) = 2 ∧
    ¬ liveBackEndsOpt (backendInit 0 (startup 0)) ≤ 1 := by
  constructor <;> decide

/-- C3 (amended): at most one instance is registered in the process-wide
singleton slot `m_instance` at any time; every `init ()` made while an
instance is registered fails the fatal assertion, and `init ()` on an empty
slot registers a fresh backend.  Besides the registered instance, the
file-static backend object exists for the whole process lifetime, so every
reachable process state has between one and two live instances. -/
theorem C3_singleton_slot_discipline :
    (∀ (now : Nat) (p : ProcessState),
        p.m_instance.isSome → backendInit now p = none) ∧
    (∀ (now : Nat) (p : ProcessState),
        p.m_instance = none →
        backendInit now p =
          some { p with m_instance := some (LibPinyinBackEnd.construct now) }) ∧
    (∀ (now : Nat) (ops : List POp) (p : ProcessState),
        pexec (some (startup now)) ops = some p →
        p.static_backend.isSome ∧ 1 ≤ liveBackEnds p ∧ liveBackEnds p ≤ 2) := by
  refine ⟨?_, ?_, ?_⟩
  · rintro now ⟨inst, stat⟩ h
    cases inst with
    | none => simp at h
    | some b => simp [backendInit]
  · rintro now ⟨inst, stat⟩ h
    cases inst with
    | none => simp [backendInit]
    | some b => simp at h
  · intro now ops p hrun
    have key : ∀ (ops : List POp) (q p : ProcessState),
        q.static_backend.isSome →
        pexec (some q) ops = some p → p.static_backend.isSome := by
      intro ops
      induction ops with
      | nil =>
        intro q p hq hrun
        simp [pexec] at hrun
        exact hrun ▸ hq
      | cons op ops ih =>
        intro q p hq hrun
        cases op with
        | init now2 =>
          cases hinst : q.m_instance with
          | some b =>
            rw [show pexec (some q) (POp.init now2 :: ops) =
                pexec (backendInit now2 q) ops from rfl,
              show backendInit now2 q = none by
                simp [backendInit, hinst]] at hrun
            cases ops <;> simp [pexec] at hrun
          | none =>
            refine ih { q with
                m_instance := some (LibPinyinBackEnd.construct now2) } p
              (by simpa using hq) ?_
            rw [show pexec (some q) (POp.init now2 :: ops) =
                pexec (backendInit now2 q) ops from rfl,
              show backendInit now2 q =
                some { q with
                  m_instance := some (LibPinyinBackEnd.construct now2) } by
                simp [backendInit, hinst]] at hrun
            exact hrun
        | finalize =>
          refine ih (backendFinalize q).1 p ?_ hrun
          cases hinst : q.m_instance <;>
            simp [backendFinalize, hinst, hq]
    have hstat : p.static_backend.isSome :=
      key ops (startup now) p (by simp [startup]) hrun
    refine ⟨hstat, ?_, ?_⟩
    · unfold liveBackEnds
      rw [hstat]
      cases p.m_instance.isSome <;> simp
    · unfold liveBackEnds
      cases p.m_instance.isSome <;> cases p.static_backend.isSome <;> simp

/-- C3 amended-claim witness at concrete inputs. -/
theorem C3_singleton_slot_discipline_witness :
    backendInit 1 { m_instance := some (LibPinyinBackEnd.construct 0),
                    static_backend := some (LibPinyinBackEnd.construct 0) } =
      none ∧
    backendInit 1 (startup 0) =
      some { startup 0 with
        m_instance := some (LibPinyinBackEnd.construct 1) } ∧
    (startup 0).static_backend.isSome :=
  ⟨C3_singleton_slot_discipline.1 1 _ (by decide),
   C3_singleton_slot_discipline.2.1 1 (startup 0) rfl,
   (C3_singleton_slot_discipline.2.2 0 [] (startup 0) rfl).1⟩

/-- C2: evaluation of `allocChewingInstance` at its first call with a home
directory of `/home/user` and a succeeding `g_mkdir_with_parents`: the
backend builds and creates `~/.cache/ibus/libbopomofo` (mode 0700 = 448),
yet initializes the Bopomofo context with a NULL user directory
(PYLibPinyin.cc line 90 passes NULL, not `userdir`), contradicting the
claimed "system data path plus the (possibly absent) per-family user
directory". -/
theorem C2_chewing_context_ignores_created_userdir :
    Event.mkdirWithParents "/home/user/.cache/ibus/libbopomofo" 448 ∈
      ((LibPinyinBackEnd.construct 0).allocChewingInstance env0 cfg0).2 ∧
    Event.engineInit Family.chewing SYSTEM_DATA_DIR none ∈
      ((LibPinyinBackEnd.construct 0).allocChewingInstance env0 cfg0).2 ∧
    Event.engineInit Family.chewing SYSTEM_DATA_DIR
        (some "/home/user/.cache/ibus/libbopomofo") ∉
      ((LibPinyinBackEnd.construct 0).allocChewingInstance env0 cfg0).2 ∧
    (((LibPinyinBackEnd.construct 0).allocChewingInstance env0 cfg0).1
        |> contextOf Family.chewing |>.map Context.userdir) = some none := by
  refine ⟨?_, ?_, ?_, ?_⟩ <;> decide

/-- C7: if the backend is destroyed while a save is scheduled, `saveUserDB`
is invoked (saving every existing context) and the pending timer is removed,
all before any `pinyin_fini` destroys a context — the prefix of the
destructor trace preceding the first `pinyin_fini` already contains them
(`destructor` consults no clock, so this holds whether or not the quiet
interval has elapsed); with no scheduled save, no save occurs at teardown;
in either case exactly the present contexts are destroyed. -/
theorem C7_forced_save_at_teardown :
    ∀ s : LibPinyinBackEnd,
      (s.m_timeout_id ≠ 0 →
        Event.saveUserDBCall ∈
          s.destructor.takeWhile (fun e => ! isFiniEvent e) ∧
        (∀ f, (contextOf f s).isSome →
          Event.engineSave f ∈
            s.destructor.takeWhile (fun e => ! isFiniEvent e)) ∧
        Event.sourceRemove s.m_timeout_id ∈
          s.destructor.takeWhile (fun e => ! isFiniEvent e)) ∧
      (s.m_timeout_id = 0 →
        Event.saveUserDBCall ∉ s.destructor ∧
        (∀ f, Event.engineSave f ∉ s.destructor)) ∧
      (∀ f, Event.engineFini f ∈ s.destructor ↔ (contextOf f s).isSome) := by
  rintro ⟨tid, tim, pc, cc⟩
  by_cases htid : tid = 0 <;>
    refine ⟨?_, ?_, ?_⟩ <;>
      cases pc <;> cases cc <;>
        simp [LibPinyinBackEnd.destructor, LibPinyinBackEnd.saveUserDB,
          contextOf, isFiniEvent, htid] <;>
        (intro f; cases f <;> simp)

/-- C5: on every Pinyin allocation — context fresh or pre-existing — the
configuration is re-read and applied: the options pushed (and left on the
context) are exactly the configuration's flags OR-ed with
`USE_RESPLIT_TABLE`; a selector matching a table entry sets exactly that
entry's scheme; any other selector produces no scheme call and leaves the
prior scheme (or engine default) untouched. -/
theorem C5_pinyin_option_mapping :
    ∀ (env : Env) (config : Config) (s : LibPinyinBackEnd),
      (Event.engineSetOptions Family.pinyin
          (config.option ||| USE_RESPLIT_TABLE) ∈
        (s.allocPinyinInstance env config).2) ∧
      (((s.allocPinyinInstance env config).1.m_pinyin_context.map
          Context.options) =
        some (some (config.option ||| USE_RESPLIT_TABLE))) ∧
      (∀ p ∈ double_pinyin_options, config.doublePinyinSchema = p.1 →
        ((s.allocPinyinInstance env config).1.m_pinyin_context.map
            Context.doubleScheme) = some (some p.2) ∧
        Event.engineSetDoubleScheme p.2 ∈
          (s.allocPinyinInstance env config).2) ∧
      ((∀ p ∈ double_pinyin_options, config.doublePinyinSchema ≠ p.1) →
        ((s.allocPinyinInstance env config).1.m_pinyin_context.map
            Context.doubleScheme) = some (priorPinyinScheme s) ∧
        (∀ sch, Event.engineSetDoubleScheme sch ∉
          (s.allocPinyinInstance env config).2)) := by
  rintro env ⟨map, bmap, opt⟩ ⟨tid, tim, pc, cc⟩
  refine ⟨?_, ?_, ?_, ?_⟩
  · cases pc <;>
      simp [LibPinyinBackEnd.allocPinyinInstance,
        LibPinyinBackEnd.setPinyinOptions, LibPinyinBackEnd.pinyinSchemeStep,
        double_pinyin_options]
  · cases pc <;>
      simp [LibPinyinBackEnd.allocPinyinInstance,
        LibPinyinBackEnd.setPinyinOptions, LibPinyinBackEnd.pinyinSchemeStep,
        double_pinyin_options]
  · intro p hp heq
    simp [double_pinyin_options] at hp
    rcases hp with h | h | h | h | h | h <;> rw [h] at heq ⊢ <;>
      subst heq <;> cases pc <;>
      constructor <;>
      simp [LibPinyinBackEnd.allocPinyinInstance,
        LibPinyinBackEnd.setPinyinOptions, LibPinyinBackEnd.pinyinSchemeStep,
        double_pinyin_options, pinyin_init]
  · intro hno
    have h0 := hno (0, DoublePinyinScheme.DOUBLE_PINYIN_MS)
      (by simp [double_pinyin_options])
    have h1 := hno (1, DoublePinyinScheme.DOUBLE_PINYIN_ZRM)
      (by simp [double_pinyin_options])
    have h2 := hno (2, DoublePinyinScheme.DOUBLE_PINYIN_ABC)
      (by simp [double_pinyin_options])
    have h3 := hno (3, DoublePinyinScheme.DOUBLE_PINYIN_ZIGUANG)
      (by simp [double_pinyin_options])
    have h4 := hno (4, DoublePinyinScheme.DOUBLE_PINYIN_PYJJ)
      (by simp [double_pinyin_options])
    have h5 := hno (5, DoublePinyinScheme.DOUBLE_PINYIN_XHE)
      (by simp [double_pinyin_options])
    simp only at h0 h1 h2 h3 h4 h5
    constructor <;> cases pc <;>
      simp [LibPinyinBackEnd.allocPinyinInstance,
        LibPinyinBackEnd.setPinyinOptions, LibPinyinBackEnd.pinyinSchemeStep,
        double_pinyin_options, pinyin_init, priorPinyinScheme,
        h0, h1, h2, h3, h4, h5]

/-- C5 witness: selector 1 sets ZRM on a fresh context; selector 9 on the
resulting context leaves ZRM in place with no scheme call. -/
theorem C5_pinyin_option_mapping_witness :
    (((LibPinyinBackEnd.construct 0).allocPinyinInstance env0
        { cfg0 with doublePinyinSchema := 1 }).1.m_pinyin_context.map
      Context.doubleScheme) =
      some (some DoublePinyinScheme.DOUBLE_PINYIN_ZRM) ∧
    ((((LibPinyinBackEnd.construct 0).allocPinyinInstance env0
        { cfg0 with doublePinyinSchema := 1 }).1.allocPinyinInstance env0
        { cfg0 with doublePinyinSchema := 9 }).1.m_pinyin_context.map
      Context.doubleScheme) =
      some (some DoublePinyinScheme.DOUBLE_PINYIN_ZRM) :=
  ⟨((C5_pinyin_option_mapping env0 { cfg0 with doublePinyinSchema := 1 }
      (LibPinyinBackEnd.construct 0)).2.2.1
      (1, DoublePinyinScheme.DOUBLE_PINYIN_ZRM)
      (by simp [double_pinyin_options]) rfl).1,
   by
    have h := ((C5_pinyin_option_mapping env0
      { cfg0 with doublePinyinSchema := 9 }
      ((LibPinyinBackEnd.construct 0).allocPinyinInstance env0
        { cfg0 with doublePinyinSchema := 1 }).1).2.2.2
      (by intro p hp; fin_cases hp <;> decide)).1
    rw [h]
    decide⟩

/-- C7 witness: a backend with a pending timer (id 5) and both contexts
present force-saves both families and cancels the timer before the finis. -/
theorem C7_forced_save_at_teardown_witness :
    Event.saveUserDBCall ∈
      ({ m_timeout_id := 5, m_timer := 0,
         m_pinyin_context := some (pinyin_init SYSTEM_DATA_DIR none),
         m_chewing_context := some (pinyin_init SYSTEM_DATA_DIR none) } :
        LibPinyinBackEnd).destructor.takeWhile (fun e => ! isFiniEvent e) ∧
    Event.saveUserDBCall ∉
      ({ m_timeout_id := 0, m_timer := 0,
         m_pinyin_context := some (pinyin_init SYSTEM_DATA_DIR none),
         m_chewing_context := none } : LibPinyinBackEnd).destructor :=
  ⟨((C7_forced_save_at_teardown _).1 (by decide)).1,
   ((C7_forced_save_at_teardown _).2.1 rfl).1⟩


/-! ### Debounce helper lemmas -/

theorem countSaveCalls_append (a b : List Event) :
    countSaveCalls (a ++ b) = countSaveCalls a + countSaveCalls b := by
  simp [countSaveCalls, List.filter_append]

theorem countSaveCalls_saveUserDB (s : LibPinyinBackEnd) :
    countSaveCalls (s.saveUserDB).2 = 1 := by
  obtain ⟨tid, tim, pc, cc⟩ := s
  cases pc <;> cases cc <;>
    simp [LibPinyinBackEnd.saveUserDB, countSaveCalls]

theorem applyModifieds_no_saves :
    ∀ (ts : List (Nat × Nat)) (s : LibPinyinBackEnd),
      countSaveCalls (applyModifieds s ts).2 = 0 := by
  intro ts
  induction ts with
  | nil => intro s; simp [applyModifieds, countSaveCalls]
  | cons p ts ih =>
    intro s
    obtain ⟨t, newId⟩ := p
    simp only [applyModifieds, countSaveCalls_append]
    rw [ih]
    by_cases h : s.m_timeout_id = 0 <;>
      simp [LibPinyinBackEnd.modified, h, countSaveCalls]

theorem applyModifieds_timer :
    ∀ (ts : List (Nat × Nat)) (s : LibPinyinBackEnd) (t i : Nat),
      (applyModifieds s (ts ++ [(t, i)])).1.m_timer = t := by
  intro ts
  induction ts with
  | nil =>
    intro s t i
    by_cases h : s.m_timeout_id = 0 <;>
      simp [applyModifieds, LibPinyinBackEnd.modified, h]
  | cons p ts ih =>
    intro s t i
    obtain ⟨t2, i2⟩ := p
    simp only [List.cons_append, applyModifieds]
    exact ih _ t i

theorem timeoutCallback_state (s : LibPinyinBackEnd) (c : Nat) :
    (¬ LIBPINYIN_SAVE_TIMEOUT ≤ c - s.m_timer →
      s.timeoutCallback c = (true, s, [])) ∧
    (LIBPINYIN_SAVE_TIMEOUT ≤ c - s.m_timer →
      (s.timeoutCallback c).1 = false ∧
      (s.timeoutCallback c).2.1 = { s with m_timeout_id := 0 } ∧
      (s.timeoutCallback c).2.2 = (s.saveUserDB).2) := by
  constructor <;> intro h <;>
    simp [LibPinyinBackEnd.timeoutCallback, LibPinyinBackEnd.saveUserDB, h]

theorem runCallbacks_count :
    ∀ (cs : List Nat) (s : LibPinyinBackEnd),
      countSaveCalls (runCallbacks s cs).2 =
        if cs.any (fun c => s.m_timer + LIBPINYIN_SAVE_TIMEOUT ≤ c) then 1
        else 0 := by
  intro cs
  induction cs with
  | nil => intro s; simp [runCallbacks, countSaveCalls]
  | cons c cs ih =>
    intro s
    by_cases h : LIBPINYIN_SAVE_TIMEOUT ≤ c - s.m_timer
    · have hc : s.m_timer + LIBPINYIN_SAVE_TIMEOUT ≤ c := by
        rw [show LIBPINYIN_SAVE_TIMEOUT = 300 from rfl] at h ⊢
        omega
      obtain ⟨hf1, hf2, hf3⟩ := (timeoutCallback_state s c).2 h
      simp only [runCallbacks, hf1, Bool.false_eq_true, if_false, hf3,
        countSaveCalls_saveUserDB, List.any_cons]
      simp [hc]
    · have hc : ¬ s.m_timer + LIBPINYIN_SAVE_TIMEOUT ≤ c := by
        rw [show LIBPINYIN_SAVE_TIMEOUT = 300 from rfl] at h ⊢
        omega
      have hcont := (timeoutCallback_state s c).1 h
      simp only [runCallbacks, hcont]
      simp [countSaveCalls_append, ih s, List.any_cons, hc]

/-- C1: every `modified` call restarts the elapsed-time clock; a timer is
added (interval `LIBPINYIN_SAVE_TIMEOUT`) only when none is pending; a
callback firing with elapsed time below the quiet interval returns
"continue" with no save and an unchanged state; one firing at or past the
quiet interval performs exactly one `saveUserDB` and returns "stop"; and for
any burst of `modified` calls followed by any schedule of callback firings,
no save happens during the burst and exactly one save happens overall iff
some firing comes at least the quiet interval after the *last* `modified`
call. -/
theorem C1_debounce_coalescing :
    (∀ (s : LibPinyinBackEnd) (now newId : Nat),
        ((s.modified now newId).1).m_timer = now) ∧
    (∀ (s : LibPinyinBackEnd) (now newId : Nat), s.m_timeout_id ≠ 0 →
        (s.modified now newId).1.m_timeout_id = s.m_timeout_id ∧
        (s.modified now newId).2 = []) ∧
    (∀ (s : LibPinyinBackEnd) (now newId : Nat), s.m_timeout_id = 0 →
        (s.modified now newId).1.m_timeout_id = newId ∧
        (s.modified now newId).2 =
          [Event.timeoutAdd LIBPINYIN_SAVE_TIMEOUT newId]) ∧
    (∀ (s : LibPinyinBackEnd) (now : Nat),
        now - s.m_timer < LIBPINYIN_SAVE_TIMEOUT →
        s.timeoutCallback now = (true, s, [])) ∧
    (∀ (s : LibPinyinBackEnd) (now : Nat),
        LIBPINYIN_SAVE_TIMEOUT ≤ now - s.m_timer →
        (s.timeoutCallback now).1 = false ∧
        (s.timeoutCallback now).2.1.m_timeout_id = 0 ∧
        countSaveCalls (s.timeoutCallback now).2.2 = 1) ∧
    (∀ (s : LibPinyinBackEnd) (ts : List (Nat × Nat)) (tn idn : Nat)
        (cs : List Nat),
        countSaveCalls (applyModifieds s (ts ++ [(tn, idn)])).2 = 0 ∧
        (applyModifieds s (ts ++ [(tn, idn)])).1.m_timer = tn ∧
        countSaveCalls
            (runCallbacks (applyModifieds s (ts ++ [(tn, idn)])).1 cs).2 =
          if cs.any (fun c => tn + LIBPINYIN_SAVE_TIMEOUT ≤ c) then 1
          else 0) := by
  refine ⟨?_, ?_, ?_, ?_, ?_, ?_⟩
  · intro s now newId
    by_cases h : s.m_timeout_id = 0 <;> simp [LibPinyinBackEnd.modified, h]
  · intro s now newId h
    simp [LibPinyinBackEnd.modified, h]
  · intro s now newId h
    simp [LibPinyinBackEnd.modified, h]
  · intro s now h
    have h2 : ¬ LIBPINYIN_SAVE_TIMEOUT ≤ now - s.m_timer := by omega
    exact (timeoutCallback_state s now).1 h2
  · intro s now h
    obtain ⟨hf1, hf2, hf3⟩ := (timeoutCallback_state s now).2 h
    exact ⟨hf1, by rw [hf2], by rw [hf3, countSaveCalls_saveUserDB]⟩
  · intro s ts tn idn cs
    refine ⟨applyModifieds_no_saves _ s, applyModifieds_timer ts s tn idn, ?_⟩
    rw [runCallbacks_count cs, applyModifieds_timer ts s tn idn]

/-- C1 witness: a pending timer (id 7) is not re-armed; a callback 100 s
after construction continues without saving; two `modified` calls (at 10 s
and 20 s) followed by callbacks at 300 s (too early: 280 s since the last
call) and 320 s yield exactly one save. -/
theorem C1_debounce_coalescing_witness :
    (7 : Nat) ≠ 0 ∧
    (({ m_timeout_id := 7, m_timer := 0, m_pinyin_context := none,
        m_chewing_context := none } :
          LibPinyinBackEnd).modified 50 9).1.m_timeout_id = 7 ∧
    (100 : Nat) - (LibPinyinBackEnd.construct 0).m_timer <
      LIBPINYIN_SAVE_TIMEOUT ∧
    (LibPinyinBackEnd.construct 0).timeoutCallback 100 =
      (true, LibPinyinBackEnd.construct 0, []) ∧
    countSaveCalls
      (runCallbacks
        (applyModifieds (LibPinyinBackEnd.construct 0)
          ([(10, 3)] ++ [(20, 4)])).1 [300, 320]).2 = 1 :=
  ⟨by decide,
   (C1_debounce_coalescing.2.1 _ 50 9 (by decide)).1,
   by decide,
   C1_debounce_coalescing.2.2.2.1 _ 100 (by decide),
   by
    have h := (C1_debounce_coalescing.2.2.2.2.2
      (LibPinyinBackEnd.construct 0) [(10, 3)] 20 4 [300, 320]).2.2
    rw [h]
    decide⟩

/-! ### Context-creation helper lemmas -/

theorem countInits_append (f : Family) (a b : List Event) :
    countInits f (a ++ b) = countInits f a + countInits f b := by
  simp [countInits, List.filter_append]

theorem countInits_pinyinFold (f : Family) (map : Int) :
    ∀ (l : List (Int × DoublePinyinScheme)) (acc : Context × List Event),
      countInits f
          ((l.foldl (LibPinyinBackEnd.pinyinSchemeStep map) acc).2) =
        countInits f acc.2 := by
  intro l
  induction l with
  | nil => intro acc; rfl
  | cons p l ih =>
    intro acc
    rw [List.foldl_cons, ih]
    unfold LibPinyinBackEnd.pinyinSchemeStep
    split_ifs with h
    · simp [countInits, isInitFor, List.filter_append]
    · rfl

theorem countInits_chewingFold (f : Family) (map : Int) :
    ∀ (l : List (Int × ChewingScheme)) (acc : Context × List Event),
      countInits f
          ((l.foldl (LibPinyinBackEnd.chewingSchemeStep map) acc).2) =
        countInits f acc.2 := by
  intro l
  induction l with
  | nil => intro acc; rfl
  | cons p l ih =>
    intro acc
    rw [List.foldl_cons, ih]
    unfold LibPinyinBackEnd.chewingSchemeStep
    split_ifs with h
    · simp [countInits, isInitFor, List.filter_append]
    · rfl

theorem countInits_setPinyinOptions (f : Family) (config : Config)
    (s : LibPinyinBackEnd) :
    countInits f (s.setPinyinOptions config).2.2 = 0 := by
  obtain ⟨tid, tim, pc, cc⟩ := s
  cases pc with
  | none => rfl
  | some ctx =>
    simp only [LibPinyinBackEnd.setPinyinOptions, countInits_append,
      countInits_pinyinFold]
    simp [countInits, isInitFor]

theorem countInits_setChewingOptions (f : Family) (config : Config)
    (s : LibPinyinBackEnd) :
    countInits f (s.setChewingOptions config).2.2 = 0 := by
  obtain ⟨tid, tim, pc, cc⟩ := s
  cases cc with
  | none => rfl
  | some ctx =>
    simp only [LibPinyinBackEnd.setChewingOptions, countInits_append,
      countInits_chewingFold]
    simp [countInits, isInitFor]

theorem contextOf_runOp (f : Family) (op : Op) (s : LibPinyinBackEnd) :
    (contextOf f (runOp s op).1).isSome =
      ((contextOf f s).isSome || allocFor f op) := by
  obtain ⟨tid, tim, pc, cc⟩ := s
  cases op with
  | allocPinyin env config =>
    cases f <;> cases pc <;> cases cc <;>
      simp [runOp, contextOf, allocFor, LibPinyinBackEnd.allocPinyinInstance,
        LibPinyinBackEnd.setPinyinOptions]
  | allocChewing env config =>
    cases f <;> cases pc <;> cases cc <;>
      simp [runOp, contextOf, allocFor, LibPinyinBackEnd.allocChewingInstance,
        LibPinyinBackEnd.setChewingOptions]
  | freePinyin =>
    cases f <;> simp [runOp, contextOf, allocFor,
      LibPinyinBackEnd.freePinyinInstance]
  | freeChewing =>
    cases f <;> simp [runOp, contextOf, allocFor,
      LibPinyinBackEnd.freeChewingInstance]
  | setPinyinOpts config =>
    cases f <;> cases pc <;> cases cc <;>
      simp [runOp, contextOf, allocFor, LibPinyinBackEnd.setPinyinOptions]
  | setChewingOpts config =>
    cases f <;> cases pc <;> cases cc <;>
      simp [runOp, contextOf, allocFor, LibPinyinBackEnd.setChewingOptions]
  | modifiedOp now newId =>
    by_cases h : tid = 0 <;> cases f <;>
      simp [runOp, contextOf, allocFor, LibPinyinBackEnd.modified, h]
  | timeoutCb now =>
    by_cases h : LIBPINYIN_SAVE_TIMEOUT ≤ now - tim <;> cases f <;>
      simp [runOp, contextOf, allocFor, LibPinyinBackEnd.timeoutCallback,
        LibPinyinBackEnd.saveUserDB, h]
  | saveOp =>
    cases f <;> simp [runOp, contextOf, allocFor]

theorem countInits_runOp (f : Family) (op : Op) (s : LibPinyinBackEnd) :
    countInits f (runOp s op).2 =
      if allocFor f op ∧ ¬ (contextOf f s).isSome then 1 else 0 := by
  obtain ⟨tid, tim, pc, cc⟩ := s
  cases op with
  | allocPinyin env config =>
    cases pc with
    | none =>
      cases f <;>
        simp only [runOp, LibPinyinBackEnd.allocPinyinInstance,
          countInits_append, countInits_setPinyinOptions] <;>
        simp [countInits, isInitFor, contextOf, allocFor]
    | some ctx =>
      cases f <;>
        simp only [runOp, LibPinyinBackEnd.allocPinyinInstance,
          countInits_append, countInits_setPinyinOptions] <;>
        simp [countInits, isInitFor, contextOf, allocFor]
  | allocChewing env config =>
    cases cc with
    | none =>
      cases f <;>
        simp only [runOp, LibPinyinBackEnd.allocChewingInstance,
          countInits_append, countInits_setChewingOptions] <;>
        simp [countInits, isInitFor, contextOf, allocFor]
    | some ctx =>
      cases f <;>
        simp only [runOp, LibPinyinBackEnd.allocChewingInstance,
          countInits_append, countInits_setChewingOptions] <;>
        simp [countInits, isInitFor, contextOf, allocFor]
  | freePinyin =>
    cases f <;> simp [runOp, allocFor, countInits, isInitFor,
      LibPinyinBackEnd.freePinyinInstance]
  | freeChewing =>
    cases f <;> simp [runOp, allocFor, countInits, isInitFor,
      LibPinyinBackEnd.freeChewingInstance]
  | setPinyinOpts config =>
    have h := countInits_setPinyinOptions f config
      ⟨tid, tim, pc, cc⟩
    cases f <;>
      simp only [runOp] <;> rw [h] <;> simp [allocFor]
  | setChewingOpts config =>
    have h := countInits_setChewingOptions f config
      ⟨tid, tim, pc, cc⟩
    cases f <;>
      simp only [runOp] <;> rw [h] <;> simp [allocFor]
  | modifiedOp now newId =>
    by_cases h : tid = 0 <;> cases f <;>
      simp [runOp, allocFor, countInits, isInitFor,
        LibPinyinBackEnd.modified, h]
  | timeoutCb now =>
    by_cases h : LIBPINYIN_SAVE_TIMEOUT ≤ now - tim <;> cases f <;>
      cases pc <;> cases cc <;>
      simp [runOp, allocFor, countInits, isInitFor,
        LibPinyinBackEnd.timeoutCallback, LibPinyinBackEnd.saveUserDB, h]
  | saveOp =>
    cases f <;> cases pc <;> cases cc <;>
      simp [runOp, allocFor, countInits, isInitFor,
        LibPinyinBackEnd.saveUserDB]
theorem exec_context_spec (f : Family) :
    ∀ (ops : List Op) (s : LibPinyinBackEnd),
      ((contextOf f (exec s ops).1).isSome =
        ((contextOf f s).isSome || ops.any (allocFor f))) ∧
      (countInits f (exec s ops).2 =
        if (contextOf f s).isSome then 0
        else if ops.any (allocFor f) then 1 else 0) := by
  intro ops
  induction ops with
  | nil =>
    intro s
    by_cases hc : (contextOf f s).isSome <;> simp [exec, countInits, hc]
  | cons op ops ih =>
    intro s
    obtain ⟨ih1, ih2⟩ := ih (runOp s op).1
    constructor
    · show (contextOf f (exec (runOp s op).1 ops).1).isSome = _
      rw [ih1, contextOf_runOp]
      simp [Bool.or_assoc]
    · show countInits f ((runOp s op).2 ++ (exec (runOp s op).1 ops).2) = _
      rw [countInits_append, ih2, countInits_runOp, contextOf_runOp]
      by_cases ha : allocFor f op <;>
        by_cases hc : (contextOf f s).isSome <;>
        simp [ha, hc]

/-- C4: immediately after construction no context exists; after any sequence
of backend operations the context for a family exists iff the sequence
contains an allocation for that family; and the number of `pinyin_init`
calls for that family over the whole run is exactly one if any allocation
for it occurred, zero otherwise — so a second allocation reuses the context
rather than creating a new one. -/
theorem C4_lazy_at_most_once_context :
    ∀ (now : Nat) (ops : List Op) (f : Family),
      contextOf f (LibPinyinBackEnd.construct now) = none ∧
      ((contextOf f (exec (LibPinyinBackEnd.construct now) ops).1).isSome =
        ops.any (allocFor f)) ∧
      (countInits f (exec (LibPinyinBackEnd.construct now) ops).2 =
        if ops.any (allocFor f) then 1 else 0) := by
  intro now ops f
  obtain ⟨h1, h2⟩ := exec_context_spec f ops (LibPinyinBackEnd.construct now)
  have hnone : contextOf f (LibPinyinBackEnd.construct now) = none := by
    cases f <;> rfl
  refine ⟨hnone, ?_, ?_⟩
  · rw [h1, hnone]
    simp
  · rw [h2, hnone]
    simp

/-! ### Pending-timer helper lemmas -/

theorem runOp_preserves_tid :
    ∀ (op : Op) (s : LibPinyinBackEnd),
      (∀ now newId, op ≠ Op.modifiedOp now newId) →
      (∀ now, op ≠ Op.timeoutCb now) →
      (runOp s op).1.m_timeout_id = s.m_timeout_id := by
  intro op s h1 h2
  obtain ⟨tid, tim, pc, cc⟩ := s
  cases op with
  | modifiedOp now newId => exact absurd rfl (h1 now newId)
  | timeoutCb now => exact absurd rfl (h2 now)
  | allocPinyin env config =>
    cases pc <;> simp [runOp, LibPinyinBackEnd.allocPinyinInstance,
      LibPinyinBackEnd.setPinyinOptions]
  | allocChewing env config =>
    cases cc <;> simp [runOp, LibPinyinBackEnd.allocChewingInstance,
      LibPinyinBackEnd.setChewingOptions]
  | setPinyinOpts config =>
    cases pc <;> simp [runOp, LibPinyinBackEnd.setPinyinOptions]
  | setChewingOpts config =>
    cases cc <;> simp [runOp, LibPinyinBackEnd.setChewingOptions]
  | freePinyin => rfl
  | freeChewing => rfl
  | saveOp => rfl

theorem execG_invariant :
    ∀ (ops : List Op) (s : LibPinyinBackEnd) (g : Bool),
      validIds ops →
      ((s.m_timeout_id ≠ 0) ↔ g = true) →
      (((execG s g ops).1.m_timeout_id ≠ 0) ↔ (execG s g ops).2 = true) := by
  intro ops
  induction ops with
  | nil =>
    intro s g _ h
    exact h
  | cons op ops ih =>
    intro s g hv h
    show ((execG (runOp s op).1 (ghostStep s g op) ops).1.m_timeout_id ≠ 0) ↔
      (execG (runOp s op).1 (ghostStep s g op) ops).2 = true
    cases op with
    | modifiedOp now newId =>
      obtain ⟨hid, hrest⟩ := hv
      apply ih _ _ hrest
      by_cases htid : s.m_timeout_id = 0 <;>
        simp [runOp, LibPinyinBackEnd.modified, ghostStep, htid, hid]
    | timeoutCb now =>
      apply ih _ _ hv
      by_cases hel : LIBPINYIN_SAVE_TIMEOUT ≤ now - s.m_timer
      · simp [runOp, ghostStep, LibPinyinBackEnd.timeoutCallback,
          LibPinyinBackEnd.saveUserDB, hel]
      · simp [runOp, ghostStep, LibPinyinBackEnd.timeoutCallback,
          LibPinyinBackEnd.saveUserDB, hel]
        exact h
    | allocPinyin env config =>
      apply ih _ _ hv
      rw [show ghostStep s g (Op.allocPinyin env config) = g from rfl,
        runOp_preserves_tid _ _ (fun _ _ hx => Op.noConfusion hx)
          (fun _ hx => Op.noConfusion hx)]
      exact h
    | allocChewing env config =>
      apply ih _ _ hv
      rw [show ghostStep s g (Op.allocChewing env config) = g from rfl,
        runOp_preserves_tid _ _ (fun _ _ hx => Op.noConfusion hx)
          (fun _ hx => Op.noConfusion hx)]
      exact h
    | freePinyin =>
      apply ih _ _ hv
      rw [show ghostStep s g Op.freePinyin = g from rfl,
        runOp_preserves_tid _ _ (fun _ _ hx => Op.noConfusion hx)
          (fun _ hx => Op.noConfusion hx)]
      exact h
    | freeChewing =>
      apply ih _ _ hv
      rw [show ghostStep s g Op.freeChewing = g from rfl,
        runOp_preserves_tid _ _ (fun _ _ hx => Op.noConfusion hx)
          (fun _ hx => Op.noConfusion hx)]
      exact h
    | setPinyinOpts config =>
      apply ih _ _ hv
      rw [show ghostStep s g (Op.setPinyinOpts config) = g from rfl,
        runOp_preserves_tid _ _ (fun _ _ hx => Op.noConfusion hx)
          (fun _ hx => Op.noConfusion hx)]
      exact h
    | setChewingOpts config =>
      apply ih _ _ hv
      rw [show ghostStep s g (Op.setChewingOpts config) = g from rfl,
        runOp_preserves_tid _ _ (fun _ _ hx => Op.noConfusion hx)
          (fun _ hx => Op.noConfusion hx)]
      exact h
    | saveOp =>
      apply ih _ _ hv
      rw [show ghostStep s g Op.saveOp = g from rfl,
        runOp_preserves_tid _ _ (fun _ _ hx => Op.noConfusion hx)
          (fun _ hx => Op.noConfusion hx)]
      exact h

/-- C6: the pending-timer identifier is zero at construction and, over every
operation sequence (with the non-zero ids `g_timeout_add_seconds`
guarantees), it is non-zero exactly while a save has been scheduled and has
not yet completed (ghost flag: set by `modified`, cleared when the timer
callback performs the save); at destruction a pending timer is the exact
condition under which the source is removed. -/
theorem C6_pending_timer_invariant :
    (∀ now : Nat, (LibPinyinBackEnd.construct now).m_timeout_id = 0) ∧
    (∀ (now : Nat) (ops : List Op), validIds ops →
      (((execG (LibPinyinBackEnd.construct now) false ops).1.m_timeout_id ≠ 0)
        ↔ (execG (LibPinyinBackEnd.construct now) false ops).2 = true)) ∧
    (∀ s : LibPinyinBackEnd,
      Event.sourceRemove s.m_timeout_id ∈ s.destructor ↔
        s.m_timeout_id ≠ 0) := by
  refine ⟨fun _ => rfl, ?_, ?_⟩
  · intro now ops hv
    exact execG_invariant ops _ false hv (by simp [LibPinyinBackEnd.construct])
  · intro s
    obtain ⟨tid, tim, pc, cc⟩ := s
    by_cases htid : tid = 0 <;> cases pc <;> cases cc <;>
      simp [LibPinyinBackEnd.destructor, LibPinyinBackEnd.saveUserDB, htid]

/-- C6 witness: after a single `modified` call on a fresh backend the ghost
"save scheduled, not yet completed" flag is set, as the non-zero timer id
requires. -/
theorem C6_pending_timer_invariant_witness :
    (execG (LibPinyinBackEnd.construct 0) false [Op.modifiedOp 10 7]).2 =
      true :=
  (C6_pending_timer_invariant.2.1 0 [Op.modifiedOp 10 7]
    ⟨by decide, trivial⟩).mp (by decide)
